import Mathlib

/-!
Verification development for the showBranches repository: a shallow embedding of
the env environment-variable library and of the directory-scanning tool in
main.go, with theorems about the behavior of both.

The process environment is modelled as a read-only map from keys to optional
string values.  Machine floating-point values are modelled exactly as canonical
IEEE binary floating-point data (sign, mantissa, exponent) over Nat and Int,
with round-to-nearest, ties-to-even rounding; the model covers the finite range
(no infinities, NaNs, negative zero, or overflow/underflow range errors, none
of which are exercised here).  Go panics are modelled as Except errors.
-/

set_option maxRecDepth 100000

/-- Process environment model: a read-only key-to-value map. -/
abbrev EnvMap := String → Option String

/-- Alias for the string type, used where a later definition shadows the name String. -/
abbrev Str := String

/-- Models Go os.LookupEnv: the value and whether the key is present. -/
def os.LookupEnv (e : EnvMap) (key : String) : Option String := e key

/-- Models Go os.Getenv: the value, or the empty string when the key is absent. -/
def os.Getenv (e : EnvMap) (key : String) : String := (e key).getD ""

/-- Auxiliary fuel-driven loop for bitLen. -/
def bitLenAux : ℕ → ℕ → ℕ
  | 0, _ => 0
  | fuel+1, n => if n = 0 then 0 else bitLenAux fuel (n / 2) + 1

/-- Number of binary digits of a natural number (0 for 0). -/
def bitLen (n : ℕ) : ℕ := bitLenAux (n + 1) n

/-- A binary floating-point datum in canonical form: the value is
(if sign then -1 else 1) * mant * 2 ^ exp.  Zero is represented as
false/0/0.  Produced only by roundToFloat, which normalizes. -/
structure FloatVal where
  sign : Bool
  mant : ℕ
  exp : ℤ
deriving DecidableEq

/-- The floating-point value zero, the Go zero value for float32 and float64. -/
def floatZero : FloatVal := ⟨false, 0, 0⟩

/-- Floor of the base-2 logarithm of n / d, for n, d at least 1. -/
def floorLog2Pair (n d : ℕ) : ℤ :=
  let e0 : ℤ := (bitLen n : ℤ) - (bitLen d : ℤ)
  if 0 ≤ e0 then
    if d * 2 ^ e0.toNat ≤ n then e0 else e0 - 1
  else
    if d ≤ n * 2 ^ (-e0).toNat then e0 else e0 - 1

/-- Round the rational n / d (negated when neg is true) to the nearest IEEE
binary floating-point value with precision p bits and minimum normal exponent
emin, ties to even.  Subnormal results use the fixed quantum exponent
emin - (p - 1); results are returned in canonical FloatVal form.  Overflow to
infinity is outside the model. -/
def roundToFloat (p : ℕ) (emin : ℤ) (neg : Bool) (n d : ℕ) : FloatVal :=
  if n = 0 then floatZero
  else
    let e := max (floorLog2Pair n d) emin
    let k : ℤ := e - ((p : ℤ) - 1)
    let n1 := if k ≤ 0 then n * 2 ^ (-k).toNat else n
    let d1 := if k ≤ 0 then d else d * 2 ^ k.toNat
    let q := n1 / d1
    let r := n1 % d1
    let m := if 2 * r < d1 then q
             else if d1 < 2 * r then q + 1
             else if q % 2 = 0 then q else q + 1
    if m = 0 then floatZero
    else if m = 2 ^ p then ⟨neg, 2 ^ (p - 1), k + 1⟩
    else ⟨neg, m, k⟩

/-- View a FloatVal as a signed pair numerator / denominator. -/
def FloatVal.toPair (v : FloatVal) : Bool × ℕ × ℕ :=
  if 0 ≤ v.exp then (v.sign, v.mant * 2 ^ v.exp.toNat, 1)
  else (v.sign, v.mant, 2 ^ (-v.exp).toNat)

/-- Models the Go conversion float32(r) on a finite float64 value: round the
value to the nearest binary32 datum (precision 24, minimum normal exponent
-126), ties to even. -/
def float32Conv (v : FloatVal) : FloatVal :=
  match v.toPair with
  | (neg, n, d) => roundToFloat 24 (-126) neg n d

/-- ASCII decimal digit test. -/
def isDigit (c : Char) : Bool := decide (48 ≤ c.toNat ∧ c.toNat ≤ 57)

/-- Value of a list of ASCII decimal digits, most significant first. -/
def digitsToNat (l : List Char) : ℕ := l.foldl (fun a c => 10 * a + (c.toNat - 48)) 0

/-- Decimal literal recognizer underlying the model of strconv.ParseFloat:
an optional sign, then decimal digits with an optional fraction part and an
optional decimal exponent, with at least one mantissa digit and nothing left
over.  Returns the sign and the exact value as numerator / denominator.
The hexadecimal, infinity and NaN forms and digit-separating underscores
accepted by strconv.ParseFloat are outside the model, as are the range errors
it reports for values overflowing the target format. -/
def parseDecimal (s : String) : Option (Bool × ℕ × ℕ) :=
  let signSplit : Bool × List Char :=
    match s.data with
    | '+' :: t => (false, t)
    | '-' :: t => (true, t)
    | t => (false, t)
  let neg := signSplit.1
  let l := signSplit.2
  let ip := l.takeWhile isDigit
  let r1 := l.dropWhile isDigit
  let fracSplit : List Char × List Char :=
    match r1 with
    | '.' :: t => (t.takeWhile isDigit, t.dropWhile isDigit)
    | _ => ([], r1)
  let fp := fracSplit.1
  let r2 := fracSplit.2
  if ip.isEmpty && fp.isEmpty then none
  else
    match r2 with
    | [] => some (neg, digitsToNat (ip ++ fp), 10 ^ fp.length)
    | c :: t =>
      if c = 'e' || c = 'E' then
        let expSplit : Bool × List Char :=
          match t with
          | '+' :: u => (false, u)
          | '-' :: u => (true, u)
          | u => (false, u)
        let eneg := expSplit.1
        let ed := expSplit.2.takeWhile isDigit
        let r3 := expSplit.2.dropWhile isDigit
        if ed.isEmpty || !r3.isEmpty then none
        else
          let ex := digitsToNat ed
          if eneg then some (neg, digitsToNat (ip ++ fp), 10 ^ (fp.length + ex))
          else some (neg, digitsToNat (ip ++ fp) * 10 ^ ex, 10 ^ fp.length)
      else none

/-- Models Go strconv.ParseBool: exactly the twelve canonical literals are
accepted. -/
def strconv.ParseBool (s : String) : Option Bool :=
  match s with
  | "1" | "t" | "T" | "TRUE" | "true" | "True" => some true
  | "0" | "f" | "F" | "FALSE" | "false" | "False" => some false
  | _ => none

/-- Models Go strconv.Atoi on a 64-bit platform: an optional sign followed by
one or more ASCII decimal digits and nothing else, with the result required to
fit in a signed 64-bit integer. -/
def strconv.Atoi (s : String) : Option Int :=
  let signSplit : Bool × List Char :=
    match s.data with
    | '+' :: t => (false, t)
    | '-' :: t => (true, t)
    | t => (false, t)
  let neg := signSplit.1
  let l := signSplit.2
  if l.isEmpty || !l.all isDigit then none
  else
    let v : Int := if neg then -(digitsToNat l : Int) else (digitsToNat l : Int)
    if -(2 ^ 63) ≤ v ∧ v ≤ 2 ^ 63 - 1 then some v else none

/-- Models Go strconv.ParseFloat: parse the decimal literal exactly, then round
to the nearest binary32 datum when bitSize is 32 and to the nearest binary64
datum otherwise. -/
def strconv.ParseFloat (s : String) (bitSize : ℕ) : Option FloatVal :=
  (parseDecimal s).map fun x =>
    match x with
    | (neg, n, d) =>
      if bitSize = 32 then roundToFloat 24 (-126) neg n d
      else roundToFloat 53 (-1022) neg n d

/-- Nanoseconds denoted by a Go duration unit suffix, per time.ParseDuration. -/
def durationUnitNs (u : List Char) : Option ℕ :=
  match u with
  | ['n', 's'] => some 1
  | ['u', 's'] => some 1000
  | ['µ', 's'] => some 1000
  | ['μ', 's'] => some 1000
  | ['m', 's'] => some 1000000
  | ['s'] => some 1000000000
  | ['m'] => some 60000000000
  | ['h'] => some 3600000000000
  | _ => none

/-- Fuel-driven loop over the components of a duration string: each component
is decimal digits with an optional fraction followed by a known unit suffix.
The fractional contribution is truncated toward zero. -/
def parseDurComponents : ℕ → List Char → ℕ → Option ℕ
  | 0, _, _ => none
  | _, [], acc => some acc
  | fuel+1, l, acc =>
    let ip := l.takeWhile isDigit
    let r1 := l.dropWhile isDigit
    let fracSplit : List Char × List Char :=
      match r1 with
      | '.' :: t => (t.takeWhile isDigit, t.dropWhile isDigit)
      | _ => ([], r1)
    let fp := fracSplit.1
    let r2 := fracSplit.2
    if ip.isEmpty && fp.isEmpty then none
    else
      let us := r2.takeWhile fun c => !isDigit c && c ≠ '.'
      let r3 := r2.dropWhile fun c => !isDigit c && c ≠ '.'
      match durationUnitNs us with
      | none => none
      | some u =>
        parseDurComponents fuel r3 (acc + digitsToNat ip * u + digitsToNat fp * u / 10 ^ fp.length)

/-- Models Go time.ParseDuration: an optionally signed sequence of decimal
numbers, each with an optional fraction and a unit suffix from
ns/us/µs/μs/ms/s/m/h, with the special case that a bare 0 needs no unit.
The result is in nanoseconds (time.Duration counts nanoseconds as an int64);
overflow checking is outside the model. -/
def time.ParseDuration (s : String) : Option Int :=
  let signSplit : Bool × List Char :=
    match s.data with
    | '+' :: t => (false, t)
    | '-' :: t => (true, t)
    | t => (false, t)
  let neg := signSplit.1
  let l := signSplit.2
  if l = ['0'] then some 0
  else if l.isEmpty then none
  else
    (parseDurComponents (l.length + 1) l 0).map fun n =>
      if neg then -(n : Int) else (n : Int)

namespace env

/-- Models env.StringOrDefault: the raw value, or the default when the key is
absent. -/
def StringOrDefault (e : EnvMap) (key defaultValue : String) : String :=
  match os.LookupEnv e key with
  | none => defaultValue
  | some v => v

/-- Models env.MustString: the raw value when the key is present; the Go
function panics when the key is absent, modelled as an error carrying the
panic message. -/
def MustString (e : EnvMap) (key : String) : Except String String :=
  match os.LookupEnv e key with
  | none => Except.error ("Missing required environment variable value for " ++ key)
  | some v => Except.ok v

/-- Models env.BoolOrDefault: the parsed value, or the default when the key is
absent or its value fails strconv.ParseBool. -/
def BoolOrDefault (e : EnvMap) (key : String) (defaultValue : Bool) : Bool :=
  match os.LookupEnv e key with
  | none => defaultValue
  | some v =>
    match strconv.ParseBool v with
    | none => defaultValue
    | some r => r

/-- Models env.IntOrDefault: reads the key with os.Getenv, returning the
default on an empty result or a strconv.Atoi failure. -/
def IntOrDefault (e : EnvMap) (key : String) (defaultValue : Int) : Int :=
  let envVal := os.Getenv e key
  if envVal = "" then defaultValue
  else
    match strconv.Atoi envVal with
    | none => defaultValue
    | some r => r

/-- Models env.DurationOrDefault: reads the key with os.Getenv, returning the
default on an empty result or a time.ParseDuration failure. -/
def DurationOrDefault (e : EnvMap) (key : String) (defaultValue : Int) : Int :=
  let envVal := os.Getenv e key
  if envVal = "" then defaultValue
  else
    match time.ParseDuration envVal with
    | none => defaultValue
    | some r => r

/-- Models env.Float32OrDefault: reads the key with os.Getenv, parses at 64-bit
precision with strconv.ParseFloat, and narrows the result to float32; the
default is returned on an empty result or a parse failure. -/
def Float32OrDefault (e : EnvMap) (key : String) (defaultValue : FloatVal) : FloatVal :=
  let envVal := os.Getenv e key
  if envVal = "" then defaultValue
  else
    match strconv.ParseFloat envVal 64 with
    | none => defaultValue
    | some r => float32Conv r

/-- Models env.Float64OrDefault: reads the key with os.Getenv, returning the
default on an empty result or a strconv.ParseFloat failure. -/
def Float64OrDefault (e : EnvMap) (key : String) (defaultValue : FloatVal) : FloatVal :=
  let envVal := os.Getenv e key
  if envVal = "" then defaultValue
  else
    match strconv.ParseFloat envVal 64 with
    | none => defaultValue
    | some r => r

/-- Models env.Duration: the parsed value and true, or zero and false when the
key is absent or its value fails time.ParseDuration. -/
def Duration (e : EnvMap) (key : String) : Int × Bool :=
  match os.LookupEnv e key with
  | none => (0, false)
  | some v =>
    match time.ParseDuration v with
    | none => (0, false)
    | some r => (r, true)

/-- Models env.Int: the parsed value and true, or zero and false when the key
is absent or its value fails strconv.Atoi. -/
def Int (e : EnvMap) (key : String) : Int × Bool :=
  match os.LookupEnv e key with
  | none => (0, false)
  | some v =>
    match strconv.Atoi v with
    | none => (0, false)
    | some r => (r, true)

/-- Models env.Float32: the value parsed at 64-bit precision and narrowed to
float32, and true; or zero and false when the key is absent or its value fails
strconv.ParseFloat. -/
def Float32 (e : EnvMap) (key : String) : FloatVal × Bool :=
  match os.LookupEnv e key with
  | none => (floatZero, false)
  | some v =>
    match strconv.ParseFloat v 64 with
    | none => (floatZero, false)
    | some r => (float32Conv r, true)

/-- Models env.Float64: the parsed value and true, or zero and false when the
key is absent or its value fails strconv.ParseFloat. -/
def Float64 (e : EnvMap) (key : String) : FloatVal × Bool :=
  match os.LookupEnv e key with
  | none => (floatZero, false)
  | some v =>
    match strconv.ParseFloat v 64 with
    | none => (floatZero, false)
    | some r => (r, true)

/-- Models env.String: a direct wrapper of os.LookupEnv, with the empty string
and false when the key is absent. -/
def String (e : EnvMap) (key : Str) : Str × Bool :=
  match os.LookupEnv e key with
  | none => ("", false)
  | some v => (v, true)

/-- Models env.Bool: the parsed value and true, or false and false when the key
is absent or its value fails strconv.ParseBool. -/
def Bool (e : EnvMap) (key : Str) : Bool × Bool :=
  match os.LookupEnv e key with
  | none => (false, false)
  | some v =>
    match strconv.ParseBool v with
    | none => (false, false)
    | some r => (r, true)

end env

/-- First occurrence split: the part of the list before the first occurrence of
the separator and the part after it, when the separator occurs. -/
def findSepAux (sep : List Char) : List Char → Option (List Char × List Char)
  | [] => if sep.isPrefixOf ([] : List Char) then some ([], []) else none
  | c :: t =>
    if sep.isPrefixOf (c :: t) then some ([], (c :: t).drop sep.length)
    else
      match findSepAux sep t with
      | none => none
      | some (b, a) => some (c :: b, a)

/-- Fuel-driven splitting loop over separator occurrences. -/
def splitAux (sep : List Char) : ℕ → List Char → List (List Char)
  | 0, l => [l]
  | fuel+1, l =>
    match findSepAux sep l with
    | none => [l]
    | some (b, a) => b :: splitAux sep fuel a

/-- Models Go strings.Split: all substrings between occurrences of the
separator; an empty separator splits into the individual characters.  The
program only calls it with the single-character separators slash and space. -/
def strings.Split (s sep : String) : List String :=
  if sep = "" then s.data.map fun c => String.mk [c]
  else (splitAux sep.data (s.data.length + 1) s.data).map String.mk

/-- ASCII lower-casing of one character. -/
def asciiToLower (c : Char) : Char :=
  if 65 ≤ c.toNat ∧ c.toNat ≤ 90 then Char.ofNat (c.toNat + 32) else c

/-- Models Go strings.EqualFold restricted to ASCII case folding; the program
compares branch names and remote URLs with it. -/
def strings.EqualFold (a b : String) : Bool :=
  a.data.map asciiToLower == b.data.map asciiToLower

/-- Models the helper last in main.go: the final piece of the string split on
the separator. -/
def last (s sep : String) : String := (strings.Split s sep).getLastD ""

/-- Git metadata of one opened repository, as read by getBranchInfo.  origin is
the Remotes entry for the key origin in the repository configuration: none
models the nil map entry for a repository with no origin remote, and the list
holds that remote's URLs.  originHead is the target of the unresolved symbolic
reference refs/remotes/origin/HEAD and headName the name of the reference
returned by Head(), each none when the lookup fails with ErrReferenceNotFound. -/
structure RepoState where
  origin : Option (List String)
  originHead : Option String
  headName : Option String
deriving DecidableEq

/-- What the directory walk finds at one entry of the base directory: the entry
is not a directory, it is a directory that git.PlainOpen rejects with
ErrRepositoryNotExists, or it opens as a repository with the given metadata. -/
inductive SubdirState where
  | notDir : SubdirState
  | notRepo : SubdirState
  | repo : RepoState → SubdirState
deriving DecidableEq

/-- One entry of the scanned base directory. -/
structure DirEntry where
  name : String
  state : SubdirState
deriving DecidableEq

/-- Abnormal termination of getBranchInfo: dereferencing the nil Remotes entry
for origin, or indexing an empty URL slice. -/
inductive GitPanic where
  | nilDereference : GitPanic
  | indexOutOfRange : GitPanic
deriving DecidableEq

/-- Decidable equality for Except results, by cases on both sides. -/
instance instDecEqExcept {ε α : Type} [DecidableEq ε] [DecidableEq α] :
    DecidableEq (Except ε α) := fun a b =>
  match a, b with
  | .error x, .error y =>
    match decEq x y with
    | isTrue h => isTrue (by rw [h])
    | isFalse h => isFalse (by intro hc; cases hc; exact h rfl)
  | .error _, .ok _ => isFalse (by intro hc; cases hc)
  | .ok _, .error _ => isFalse (by intro hc; cases hc)
  | .ok x, .ok y =>
    match decEq x y with
    | isTrue h => isTrue (by rw [h])
    | isFalse h => isFalse (by intro hc; cases hc; exact h rfl)

/-- Header row of the four-column tool. -/
def header : List String := ["Directory", "Repo", "Main Branch", "Current Branch"]

/-- Header row of the three-column tool. -/
def headerThreeCol : List String := ["Repo", "Main Branch", "Current Branch"]

/-- One iteration of the four-column getBranchInfo loop body on a directory
entry: either a panic, or the produced row when one is appended.  parentDir is
the next-to-last component of the absolute path of the entry, used in place of
the literal name .git.  The filter for the diffs flag compares columns 1 and 2
of the row (the origin URL and the default branch), exactly as main.go line 180
does. -/
def processEntry (diffs : Bool) (parentDir : String) (e : DirEntry) :
    Except GitPanic (Option (List String)) :=
  match e.state with
  | .notDir => .ok none
  | .notRepo => .ok none
  | .repo r =>
    let d0 := if e.name = ".git" then parentDir else e.name
    match r.origin with
    | none => .error .nilDereference
    | some [] => .error .indexOutOfRange
    | some (url :: _) =>
      match r.originHead with
      | none => .ok none
      | some target =>
        match r.headName with
        | none => .ok none
        | some hn =>
          let d2 := last target "/"
          let d3 := last hn "/"
          if !diffs || !strings.EqualFold url d2 then .ok (some [d0, url, d2, d3])
          else .ok none

/-- Data rows accumulated by the four-column getBranchInfo loop, or the panic
that aborts it. -/
def branchRows (diffs : Bool) (parentDir : String) : List DirEntry → Except GitPanic (List (List String))
  | [] => .ok []
  | e :: es =>
    match processEntry diffs parentDir e with
    | .error p => .error p
    | .ok none => branchRows diffs parentDir es
    | .ok (some row) => (branchRows diffs parentDir es).map fun rs => row :: rs

/-- Models the four-column getBranchInfo in main.go: the header row followed by
one row per surviving repository entry, or the panic that aborts the scan. -/
def getBranchInfo (diffs : Bool) (parentDir : String) (entries : List DirEntry) :
    Except GitPanic (List (List String)) :=
  (branchRows diffs parentDir entries).map fun rs => header :: rs

/-- One iteration of the three-column getBranchInfo loop body: the produced row,
when one is appended.  This variant reads no remote configuration, and its
diffs filter compares the default branch and the current branch. -/
def processEntryThreeCol (diffs : Bool) (e : DirEntry) : Option (List String) :=
  match e.state with
  | .notDir => none
  | .notRepo => none
  | .repo r =>
    match r.originHead with
    | none => none
    | some target =>
      match r.headName with
      | none => none
      | some hn =>
        let d1 := last target "/"
        let d2 := last hn "/"
        if !diffs || !strings.EqualFold d1 d2 then some [e.name, d1, d2]
        else none

/-- Models the three-column getBranchInfo: the header row followed by one row
per surviving repository entry. -/
def getBranchInfoThreeCol (diffs : Bool) (entries : List DirEntry) : List (List String) :=
  headerThreeCol :: entries.filterMap (processEntryThreeCol diffs)

/-- Models the base-directory selection of main() in the four-column tool,
translated from src/main.go lines 107 to 123: the list of base directories for
which printData runs before the process exits.  With no command-line arguments
the default list is read from SHOWBRANCHES_DEFAULT (default the current
directory) and split on spaces, but os.Exit(0) sits inside the loop over the
split, so at most its first entry is processed. -/
def mainBases (e : EnvMap) (args : List String) : List String :=
  let defaultBase := env.StringOrDefault e "SHOWBRANCHES_DEFAULT" "."
  if args = [] then
    match strings.Split defaultBase " " with
    | [] => []
    | s :: _ => [s]
  else args

/-- A directory entry skipped silently by the four-column loop: not a
directory, not a repository, or a repository with an origin remote URL whose
origin/HEAD or HEAD reference lookup fails. -/
def entrySkipped (e : DirEntry) : Prop :=
  e.state = .notDir ∨ e.state = .notRepo ∨
    ∃ r, e.state = .repo r ∧ (∃ u us, r.origin = some (u :: us)) ∧
      (r.originHead = none ∨ r.headName = none)

/-- The empty environment. -/
def envEmpty : EnvMap := fun _ => none

/-- The environment holding exactly one binding. -/
def envOf (k v : String) : EnvMap := fun q => if q = k then some v else none

/-- Fixture: a repository whose current branch equals the default branch. -/
def repoMatched : RepoState :=
  ⟨some ["https://example.com/repo.git"], some "refs/remotes/origin/main", some "refs/heads/main"⟩

/-- Fixture: a directory entry holding repoMatched. -/
def entryMatched : DirEntry := ⟨"proj", .repo repoMatched⟩

/-- Fixture: a repository whose configuration has no origin remote. -/
def repoNoOrigin : RepoState :=
  ⟨none, some "refs/remotes/origin/main", some "refs/heads/main"⟩

/-- Fixture: a repository with an origin remote but no origin/HEAD reference. -/
def repoNoOriginHead : RepoState :=
  ⟨some ["https://example.com/repo.git"], none, some "refs/heads/main"⟩

/-- Decimal literal whose direct binary32 parse differs from its binary64
parse narrowed to binary32: the exact value 1 + 2 ^ (-24) + 2 ^ (-55). -/
def c8input : String := "1.0000000596046448031462006156289135105907917022705078125"

/-- The binary32 datum for the value one. -/
def floatOne32 : FloatVal := ⟨false, 2 ^ 23, -23⟩

/-- The binary32 datum one ulp above one. -/
def floatOnePlusUlp32 : FloatVal := ⟨false, 2 ^ 23 + 1, -23⟩

/-- Empty strings are not valid integer literals for strconv.Atoi. -/
theorem atoi_empty : strconv.Atoi "" = none := rfl

/-- Empty strings are not valid duration literals for time.ParseDuration. -/
theorem parseDuration_empty : time.ParseDuration "" = none := rfl

/-- Empty strings are not valid float literals for strconv.ParseFloat. -/
theorem parseFloat_empty (bitSize : ℕ) : strconv.ParseFloat "" bitSize = none := rfl

/-- Empty strings are not valid boolean literals for strconv.ParseBool. -/
theorem parseBool_empty : strconv.ParseBool "" = none := rfl

/-- The literal yes is not a valid boolean literal for strconv.ParseBool. -/
theorem parseBool_yes : strconv.ParseBool "yes" = none := rfl

/-- C3: every OrDefault accessor returns the caller's default when the key is
absent, the parsed value when the key is present and its value parses at the
accessor's type, and the default again when the value fails to parse; being
total Lean functions, they cannot panic or raise an error. -/
theorem c3_orDefault_contract (e : EnvMap) (k : String) :
    (e k = none →
      ∀ (dS : String) (dB : Bool) (dI dD : Int) (d32 d64 : FloatVal),
        env.StringOrDefault e k dS = dS ∧
        env.BoolOrDefault e k dB = dB ∧
        env.IntOrDefault e k dI = dI ∧
        env.DurationOrDefault e k dD = dD ∧
        env.Float32OrDefault e k d32 = d32 ∧
        env.Float64OrDefault e k d64 = d64) ∧
    (∀ v, e k = some v →
      (∀ dS, env.StringOrDefault e k dS = v) ∧
      (∀ dB, env.BoolOrDefault e k dB = (strconv.ParseBool v).getD dB) ∧
      (∀ dI, env.IntOrDefault e k dI = (strconv.Atoi v).getD dI) ∧
      (∀ dD, env.DurationOrDefault e k dD = (time.ParseDuration v).getD dD) ∧
      (∀ d32, env.Float32OrDefault e k d32 = ((strconv.ParseFloat v 64).map float32Conv).getD d32) ∧
      (∀ d64, env.Float64OrDefault e k d64 = (strconv.ParseFloat v 64).getD d64)) := by
  constructor
  · intro h dS dB dI dD d32 d64
    refine ⟨?_, ?_, ?_, ?_, ?_, ?_⟩ <;>
      simp [env.StringOrDefault, env.BoolOrDefault, env.IntOrDefault, env.DurationOrDefault,
        env.Float32OrDefault, env.Float64OrDefault, os.LookupEnv, os.Getenv, h]
  · intro v hv
    by_cases hve : v = ""
    · subst hve
      refine ⟨?_, ?_, ?_, ?_, ?_, ?_⟩ <;>
        simp [env.StringOrDefault, env.BoolOrDefault, env.IntOrDefault, env.DurationOrDefault,
          env.Float32OrDefault, env.Float64OrDefault, os.LookupEnv, os.Getenv, hv,
          atoi_empty, parseDuration_empty, parseFloat_empty, parseBool_empty]
    · refine ⟨?_, ?_, ?_, ?_, ?_, ?_⟩
      · intro dS
        simp [env.StringOrDefault, os.LookupEnv, hv]
      · intro dB
        simp only [env.BoolOrDefault, os.LookupEnv, hv]
        cases hp : strconv.ParseBool v <;> simp [hp]
      · intro dI
        simp only [env.IntOrDefault, os.Getenv, hv, Option.getD_some]
        rw [if_neg hve]
        cases hp : strconv.Atoi v <;> simp [hp]
      · intro dD
        simp only [env.DurationOrDefault, os.Getenv, hv, Option.getD_some]
        rw [if_neg hve]
        cases hp : time.ParseDuration v <;> simp [hp]
      · intro d32
        simp only [env.Float32OrDefault, os.Getenv, hv, Option.getD_some]
        rw [if_neg hve]
        cases hp : strconv.ParseFloat v 64 <;> simp [hp]
      · intro d64
        simp only [env.Float64OrDefault, os.Getenv, hv, Option.getD_some]
        rw [if_neg hve]
        cases hp : strconv.ParseFloat v 64 <;> simp [hp]

/-- Witness for C3: concrete absent, parseable and unparseable inputs. -/
theorem c3_orDefault_contract_witness :
    (envEmpty "PORT" = none ∧ env.IntOrDefault envEmpty "PORT" 8080 = 8080) ∧
    (envOf "PORT" "9090" "PORT" = some "9090" ∧
      env.IntOrDefault (envOf "PORT" "9090") "PORT" 8080 = 9090) ∧
    (envOf "TIMEOUT" "bad" "TIMEOUT" = some "bad" ∧
      env.DurationOrDefault (envOf "TIMEOUT" "bad") "TIMEOUT" 30000000000 = 30000000000) := by
  refine ⟨⟨rfl, ?_⟩, ⟨by decide, ?_⟩, ⟨by decide, ?_⟩⟩
  · exact ((c3_orDefault_contract envEmpty "PORT").1 rfl "" false 8080 0 floatZero floatZero).2.2.1
  · have h := ((c3_orDefault_contract (envOf "PORT" "9090") "PORT").2 "9090" (by decide)).2.2.1 8080
    rw [h]; decide
  · have h := ((c3_orDefault_contract (envOf "TIMEOUT" "bad") "TIMEOUT").2 "bad"
      (by decide)).2.2.2.1 30000000000
    rw [h]; decide

/-- C4: every tuple-mode accessor returns the zero value of its type paired
with false when the key is absent or its value fails to parse, and the parsed
value paired with true when the value parses. -/
theorem c4_tuple_contract (e : EnvMap) (k : String) :
    (e k = none →
      env.String e k = ("", false) ∧
      env.Bool e k = (false, false) ∧
      env.Int e k = (0, false) ∧
      env.Duration e k = (0, false) ∧
      env.Float32 e k = (floatZero, false) ∧
      env.Float64 e k = (floatZero, false)) ∧
    (∀ v, e k = some v →
      env.String e k = (v, true) ∧
      env.Bool e k = (match strconv.ParseBool v with
        | none => (false, false)
        | some b => (b, true)) ∧
      env.Int e k = (match strconv.Atoi v with
        | none => (0, false)
        | some n => (n, true)) ∧
      env.Duration e k = (match time.ParseDuration v with
        | none => (0, false)
        | some n => (n, true)) ∧
      env.Float32 e k = (match strconv.ParseFloat v 64 with
        | none => (floatZero, false)
        | some r => (float32Conv r, true)) ∧
      env.Float64 e k = (match strconv.ParseFloat v 64 with
        | none => (floatZero, false)
        | some r => (r, true))) := by
  constructor
  · intro h
    refine ⟨?_, ?_, ?_, ?_, ?_, ?_⟩ <;>
      simp [env.String, env.Bool, env.Int, env.Duration, env.Float32, env.Float64,
        os.LookupEnv, h]
  · intro v hv
    refine ⟨?_, ?_, ?_, ?_, ?_, ?_⟩ <;>
      simp [env.String, env.Bool, env.Int, env.Duration, env.Float32, env.Float64,
        os.LookupEnv, hv]

/-- Witness for C4: concrete absent, parseable and unparseable inputs. -/
theorem c4_tuple_contract_witness :
    (envEmpty "N" = none ∧ env.Int envEmpty "N" = (0, false)) ∧
    (envOf "N" "42" "N" = some "42" ∧ env.Int (envOf "N" "42") "N" = (42, true)) ∧
    (envOf "N" "3.5" "N" = some "3.5" ∧ env.Int (envOf "N" "3.5") "N" = (0, false)) := by
  refine ⟨⟨rfl, ?_⟩, ⟨by decide, ?_⟩, ⟨by decide, ?_⟩⟩
  · exact ((c4_tuple_contract envEmpty "N").1 rfl).2.2.1
  · have h := ((c4_tuple_contract (envOf "N" "42") "N").2 "42" (by decide)).2.2.1
    rw [h]; decide
  · have h := ((c4_tuple_contract (envOf "N" "3.5") "N").2 "3.5" (by decide)).2.2.1
    rw [h]; decide

/-- C5: MustString fails exactly when the key is absent, with a message naming
the missing key, and otherwise returns the raw value unmodified, the empty
string included. -/
theorem c5_mustString_contract (e : EnvMap) (k : String) :
    ((∃ m, env.MustString e k = .error m) ↔ e k = none) ∧
    (e k = none →
      env.MustString e k = .error ("Missing required environment variable value for " ++ k)) ∧
    (∀ v, e k = some v → env.MustString e k = .ok v) := by
  refine ⟨⟨?_, ?_⟩, ?_, ?_⟩
  · rintro ⟨m, hm⟩
    cases hk : e k with
    | none => rfl
    | some v => simp [env.MustString, os.LookupEnv, hk] at hm
  · intro h
    refine ⟨"Missing required environment variable value for " ++ k, ?_⟩
    simp [env.MustString, os.LookupEnv, h]
  · intro h
    simp [env.MustString, os.LookupEnv, h]
  · intro v hv
    simp [env.MustString, os.LookupEnv, hv]

/-- Witness for C5: a missing key fails with a message naming it; a key set to
the empty string is present and yields the empty string. -/
theorem c5_mustString_contract_witness :
    envEmpty "API_KEY" = none ∧
    env.MustString envEmpty "API_KEY" =
      .error "Missing required environment variable value for API_KEY" ∧
    envOf "API_KEY" "" "API_KEY" = some "" ∧
    env.MustString (envOf "API_KEY" "") "API_KEY" = .ok "" := by
  refine ⟨rfl, ?_, by decide, ?_⟩
  · have h := (c5_mustString_contract envEmpty "API_KEY").2.1 rfl
    rw [h]; decide
  · exact (c5_mustString_contract (envOf "API_KEY" "") "API_KEY").2.2 "" (by decide)

/-- C6: for each supported type the OrDefault accessor agrees pointwise with
the tuple-mode accessor: it returns the tuple value when that mode reports
found, and the caller's default when it does not. -/
theorem c6_modes_agree (e : EnvMap) (k : String) (dS : String) (dB : Bool) (dI dD : Int)
    (d32 d64 : FloatVal) :
    env.StringOrDefault e k dS = (if (env.String e k).2 then (env.String e k).1 else dS) ∧
    env.BoolOrDefault e k dB = (if (env.Bool e k).2 then (env.Bool e k).1 else dB) ∧
    env.IntOrDefault e k dI = (if (env.Int e k).2 then (env.Int e k).1 else dI) ∧
    env.DurationOrDefault e k dD = (if (env.Duration e k).2 then (env.Duration e k).1 else dD) ∧
    env.Float32OrDefault e k d32 = (if (env.Float32 e k).2 then (env.Float32 e k).1 else d32) ∧
    env.Float64OrDefault e k d64 = (if (env.Float64 e k).2 then (env.Float64 e k).1 else d64) := by
  cases hk : e k with
  | none =>
    refine ⟨?_, ?_, ?_, ?_, ?_, ?_⟩ <;>
      simp [env.StringOrDefault, env.String, env.BoolOrDefault, env.Bool, env.IntOrDefault,
        env.Int, env.DurationOrDefault, env.Duration, env.Float32OrDefault, env.Float32,
        env.Float64OrDefault, env.Float64, os.LookupEnv, os.Getenv, hk]
  | some v =>
    by_cases hve : v = ""
    · subst hve
      refine ⟨?_, ?_, ?_, ?_, ?_, ?_⟩ <;>
        simp [env.StringOrDefault, env.String, env.BoolOrDefault, env.Bool, env.IntOrDefault,
          env.Int, env.DurationOrDefault, env.Duration, env.Float32OrDefault, env.Float32,
          env.Float64OrDefault, env.Float64, os.LookupEnv, os.Getenv, hk,
          atoi_empty, parseDuration_empty, parseFloat_empty, parseBool_empty]
    · refine ⟨?_, ?_, ?_, ?_, ?_, ?_⟩
      · simp [env.StringOrDefault, env.String, os.LookupEnv, hk]
      · simp only [env.BoolOrDefault, env.Bool, os.LookupEnv, hk]
        cases hp : strconv.ParseBool v <;> simp [hp]
      · simp only [env.IntOrDefault, env.Int, os.LookupEnv, os.Getenv, hk, Option.getD_some]
        rw [if_neg hve]
        cases hp : strconv.Atoi v <;> simp [hp]
      · simp only [env.DurationOrDefault, env.Duration, os.LookupEnv, os.Getenv, hk,
          Option.getD_some]
        rw [if_neg hve]
        cases hp : time.ParseDuration v <;> simp [hp]
      · simp only [env.Float32OrDefault, env.Float32, os.LookupEnv, os.Getenv, hk,
          Option.getD_some]
        rw [if_neg hve]
        cases hp : strconv.ParseFloat v 64 <;> simp [hp]
      · simp only [env.Float64OrDefault, env.Float64, os.LookupEnv, os.Getenv, hk,
          Option.getD_some]
        rw [if_neg hve]
        cases hp : strconv.ParseFloat v 64 <;> simp [hp]

/-- C7: boolean parsing accepts exactly the canonical literal set of
strconv.ParseBool; yes is not recognized, so BoolOrDefault falls back to the
default and Bool reports not found. -/
theorem c7_bool_literal_set (e : EnvMap) (k : String) :
    strconv.ParseBool "true" = some true ∧ strconv.ParseBool "1" = some true ∧
    strconv.ParseBool "T" = some true ∧ strconv.ParseBool "TRUE" = some true ∧
    strconv.ParseBool "false" = some false ∧ strconv.ParseBool "0" = some false ∧
    strconv.ParseBool "F" = some false ∧ strconv.ParseBool "FALSE" = some false ∧
    strconv.ParseBool "yes" = none ∧
    (e k = some "yes" →
      (∀ d, env.BoolOrDefault e k d = d) ∧ env.Bool e k = (false, false)) := by
  refine ⟨rfl, rfl, rfl, rfl, rfl, rfl, rfl, rfl, rfl, ?_⟩
  intro h
  constructor
  · intro d
    simp [env.BoolOrDefault, os.LookupEnv, h, parseBool_yes]
  · simp [env.Bool, os.LookupEnv, h, parseBool_yes]

/-- Witness for C7: the accessors on an environment binding the key to yes. -/
theorem c7_bool_literal_set_witness :
    envOf "FLAG" "yes" "FLAG" = some "yes" ∧
    env.BoolOrDefault (envOf "FLAG" "yes") "FLAG" true = true ∧
    env.BoolOrDefault (envOf "FLAG" "yes") "FLAG" false = false ∧
    env.Bool (envOf "FLAG" "yes") "FLAG" = (false, false) := by
  have h := (c7_bool_literal_set (envOf "FLAG" "yes")
    "FLAG").2.2.2.2.2.2.2.2.2 (by decide)
  exact ⟨by decide, h.1 true, h.1 false, h.2⟩

/-- C8: the float32 accessors produce their result by parsing the value at
64-bit precision and narrowing the binary64 result to binary32; on the input
c8input this differs from parsing directly at 32-bit precision, which the
final conjuncts exhibit (narrowing the binary64 parse gives exactly 1, the
direct binary32 parse gives 1 plus one binary32 ulp). -/
theorem c8_float32_narrows_64bit_parse (e : EnvMap) (k : String) :
    (∀ v, e k = some v →
      (∀ d, env.Float32OrDefault e k d = ((strconv.ParseFloat v 64).map float32Conv).getD d) ∧
      env.Float32 e k = (match (strconv.ParseFloat v 64).map float32Conv with
        | none => (floatZero, false)
        | some r => (r, true))) ∧
    (strconv.ParseFloat c8input 64).map float32Conv = some floatOne32 ∧
    strconv.ParseFloat c8input 32 = some floatOnePlusUlp32 ∧
    strconv.ParseFloat c8input 32 ≠ (strconv.ParseFloat c8input 64).map float32Conv := by
  refine ⟨?_, by decide, by decide, by decide⟩
  intro v hv
  constructor
  · intro d
    by_cases hve : v = ""
    · subst hve
      simp [env.Float32OrDefault, os.Getenv, hv, parseFloat_empty]
    · simp only [env.Float32OrDefault, os.Getenv, hv, Option.getD_some]
      rw [if_neg hve]
      cases hp : strconv.ParseFloat v 64 <;> simp [hp]
  · simp only [env.Float32, os.LookupEnv, hv]
    cases hp : strconv.ParseFloat v 64 <;> simp [hp]

/-- Witness for C8: the float32 accessors applied to c8input return exactly
the narrowed binary64 parse, the value 1. -/
theorem c8_float32_narrows_64bit_parse_witness :
    envOf "F" c8input "F" = some c8input ∧
    env.Float32OrDefault (envOf "F" c8input) "F" floatZero = floatOne32 ∧
    env.Float32 (envOf "F" c8input) "F" = (floatOne32, true) := by
  have h := (c8_float32_narrows_64bit_parse (envOf "F" c8input) "F").1 c8input (by decide)
  refine ⟨by decide, ?_, ?_⟩
  · have h1 := h.1 floatZero
    rw [h1]; decide
  · rw [h.2]; decide

/-- C9: for the bool, int, duration and float accessors in both modes, a key
set to the empty string produces exactly the outputs of an absent key, while
StringOrDefault returns the empty value itself and String reports it found. -/
theorem c9_empty_value_is_absent (e : EnvMap) (k : String) :
    (e k = some "" →
      (∀ d, env.BoolOrDefault e k d = d) ∧ env.Bool e k = (false, false) ∧
      (∀ d, env.IntOrDefault e k d = d) ∧ env.Int e k = (0, false) ∧
      (∀ d, env.DurationOrDefault e k d = d) ∧ env.Duration e k = (0, false) ∧
      (∀ d, env.Float32OrDefault e k d = d) ∧ env.Float32 e k = (floatZero, false) ∧
      (∀ d, env.Float64OrDefault e k d = d) ∧ env.Float64 e k = (floatZero, false) ∧
      (∀ d, env.StringOrDefault e k d = "") ∧ env.String e k = ("", true)) ∧
    (e k = none →
      (∀ d, env.BoolOrDefault e k d = d) ∧ env.Bool e k = (false, false) ∧
      (∀ d, env.IntOrDefault e k d = d) ∧ env.Int e k = (0, false) ∧
      (∀ d, env.DurationOrDefault e k d = d) ∧ env.Duration e k = (0, false) ∧
      (∀ d, env.Float32OrDefault e k d = d) ∧ env.Float32 e k = (floatZero, false) ∧
      (∀ d, env.Float64OrDefault e k d = d) ∧ env.Float64 e k = (floatZero, false) ∧
      (∀ d, env.StringOrDefault e k d = d) ∧ env.String e k = ("", false)) := by
  constructor <;> intro h <;>
    refine ⟨?_, ?_, ?_, ?_, ?_, ?_, ?_, ?_, ?_, ?_, ?_, ?_⟩ <;>
      simp [env.BoolOrDefault, env.Bool, env.IntOrDefault, env.Int, env.DurationOrDefault,
        env.Duration, env.Float32OrDefault, env.Float32, env.Float64OrDefault, env.Float64,
        env.StringOrDefault, env.String, os.LookupEnv, os.Getenv, h,
        atoi_empty, parseDuration_empty, parseFloat_empty, parseBool_empty]

/-- Witness for C9: the int accessors and string accessors on a key set to the
empty string and on an absent key. -/
theorem c9_empty_value_is_absent_witness :
    envOf "K" "" "K" = some "" ∧
    env.IntOrDefault (envOf "K" "") "K" 7 = 7 ∧
    env.Int (envOf "K" "") "K" = (0, false) ∧
    env.StringOrDefault (envOf "K" "") "K" "fallback" = "" ∧
    env.String (envOf "K" "") "K" = ("", true) ∧
    envEmpty "K" = none ∧
    env.IntOrDefault envEmpty "K" 7 = 7 ∧
    env.Int envEmpty "K" = (0, false) ∧
    env.StringOrDefault envEmpty "K" "fallback" = "fallback" ∧
    env.String envEmpty "K" = ("", false) := by
  have h1 := (c9_empty_value_is_absent (envOf "K" "") "K").1 (by decide)
  have h2 := (c9_empty_value_is_absent envEmpty "K").2 rfl
  exact ⟨by decide, h1.2.2.1 7, h1.2.2.2.1, h1.2.2.2.2.2.2.2.2.2.2.1 "fallback",
    h1.2.2.2.2.2.2.2.2.2.2.2, rfl, h2.2.2.1 7, h2.2.2.2.1,
    h2.2.2.2.2.2.2.2.2.2.2.1 "fallback", h2.2.2.2.2.2.2.2.2.2.2.2⟩

/-- Splitting the row accumulation of the four-column scan at a list append:
a panic in the first part aborts everything, otherwise the rows concatenate. -/
theorem branchRows_append (diffs : Bool) (parent : String) (l1 l2 : List DirEntry) :
    branchRows diffs parent (l1 ++ l2) =
      match branchRows diffs parent l1 with
      | .error p => .error p
      | .ok rs => (branchRows diffs parent l2).map fun rs2 => rs ++ rs2 := by
  induction l1 with
  | nil =>
    cases h2 : branchRows diffs parent l2 <;> simp [branchRows, h2, Except.map]
  | cons e l1 ih =>
    cases hp : processEntry diffs parent e with
    | error p => simp [branchRows, hp]
    | ok o =>
      cases o with
      | none => simp [branchRows, hp, ih]
      | some row =>
        simp only [List.cons_append, branchRows, hp]
        rw [List.append_eq, ih]
        cases h1 : branchRows diffs parent l1 <;> cases h2 : branchRows diffs parent l2 <;>
          simp [Except.map]

/-- A silently skipped entry contributes neither a row nor a panic. -/
theorem processEntry_skipped (diffs : Bool) (parent : String) (e : DirEntry)
    (h : entrySkipped e) : processEntry diffs parent e = .ok none := by
  rcases h with h | h | ⟨r, hr, ⟨u, us, ho⟩, hm⟩
  · simp [processEntry, h]
  · simp [processEntry, h]
  · rcases hm with hm | hm
    · simp [processEntry, hr, ho, hm]
    · cases ht : r.originHead with
      | none => simp [processEntry, hr, ho, ht]
      | some target => simp [processEntry, hr, ho, ht, hm]

/-- A repository entry whose configuration has no origin remote makes the loop
body dereference the nil Remotes entry. -/
theorem processEntry_noOrigin (diffs : Bool) (parent name : String) (r : RepoState)
    (h : r.origin = none) :
    processEntry diffs parent ⟨name, .repo r⟩ = .error .nilDereference := by
  simp [processEntry, h]

/-- C10: in the four-column tool, a subdirectory that opens as a repository but
has no origin remote in its configuration aborts the whole scan with a nil
dereference, whatever came before or comes after it; while entries that are not
directories, are not repositories, or lack the origin/HEAD or HEAD reference
are skipped without affecting the rest of the table. -/
theorem c10_no_origin_remote_panics (diffs : Bool) (parent : String) (pre post : List DirEntry)
    (acc : List (List String)) (h : branchRows diffs parent pre = .ok acc) :
    (∀ name r, r.origin = none →
      getBranchInfo diffs parent (pre ++ ⟨name, .repo r⟩ :: post) = .error .nilDereference) ∧
    (∀ e2, entrySkipped e2 →
      getBranchInfo diffs parent (pre ++ e2 :: post) = getBranchInfo diffs parent (pre ++ post)) := by
  constructor
  · intro name r hr
    have hmid : branchRows diffs parent (⟨name, .repo r⟩ :: post) = .error .nilDereference := by
      simp [branchRows, processEntry_noOrigin diffs parent name r hr]
    simp [getBranchInfo, branchRows_append, h, hmid, Except.map]
  · intro e2 hskip
    have hstep : branchRows diffs parent (e2 :: post) = branchRows diffs parent post := by
      simp [branchRows, processEntry_skipped diffs parent e2 hskip]
    simp [getBranchInfo, branchRows_append, h, hstep]

/-- Witness for C10: a one-entry scan with a repository lacking the origin
remote panics, and one lacking the origin/HEAD reference is skipped. -/
theorem c10_no_origin_remote_panics_witness :
    branchRows false "base" [] = .ok [] ∧
    getBranchInfo false "base" [⟨"lonely", .repo repoNoOrigin⟩] = .error .nilDereference ∧
    entrySkipped ⟨"fresh", .repo repoNoOriginHead⟩ ∧
    getBranchInfo false "base" [⟨"fresh", .repo repoNoOriginHead⟩] =
      getBranchInfo false "base" [] := by
  have hc := c10_no_origin_remote_panics false "base" [] [] [] rfl
  have hsk : entrySkipped ⟨"fresh", .repo repoNoOriginHead⟩ :=
    Or.inr (Or.inr ⟨repoNoOriginHead, rfl, ⟨"https://example.com/repo.git", [], rfl⟩, Or.inl rfl⟩)
  exact ⟨rfl, hc.1 "lonely" repoNoOrigin rfl, hsk,
    hc.2 ⟨"fresh", .repo repoNoOriginHead⟩ hsk⟩

/-- C1: evaluation of the four-column tool with the diffs flag set on a
repository whose current branch equals its remote default branch
case-insensitively.  The claim requires the row to be dropped, but the tool
keeps it, because main.go line 180 compares row column 1 (the origin URL)
with column 2 (the default branch) instead of the default branch with the
current branch; the three-column variant, whose filter at line 75 compares the
right columns, drops the same repository as the claim states. -/
theorem c1_diffs_filter_compares_url_not_branches :
    getBranchInfo true "base" [entryMatched] =
      .ok [header, ["proj", "https://example.com/repo.git", "main", "main"]] ∧
    strings.EqualFold (last "refs/remotes/origin/main" "/") (last "refs/heads/main" "/") = true ∧
    getBranchInfoThreeCol true [entryMatched] = [headerThreeCol] := by
  exact ⟨by decide, by decide, by decide⟩

/-- C2: evaluation of the base-directory selection with no command-line
arguments.  The default list read from SHOWBRANCHES_DEFAULT does split into
two entries, and with no binding it defaults to the current directory, but
only the first entry of the list is ever scanned, because os.Exit(0) sits
inside the loop over the split at main.go line 117. -/
theorem c2_only_first_default_entry_scanned :
    env.StringOrDefault (envOf "SHOWBRANCHES_DEFAULT" "dirA dirB") "SHOWBRANCHES_DEFAULT" "." =
      "dirA dirB" ∧
    strings.Split "dirA dirB" " " = ["dirA", "dirB"] ∧
    mainBases (envOf "SHOWBRANCHES_DEFAULT" "dirA dirB") [] = ["dirA"] ∧
    mainBases envEmpty [] = ["."] ∧
    mainBases envEmpty ["x", "y"] = ["x", "y"] := by
  exact ⟨by decide, by decide, by decide, by decide, by decide⟩
